import Mathlib

/-!
Shallow embedding of the competitor-promotion pipeline
(`app/utils/promo_builder.py`, `app/utils/extraction_flow.py`,
`app/extractors/firecrawl/firecrawl_client.py`,
`app/scrapers/{midas,kal,fountain}_scraper.py`) and proofs about it.

Python dicts are modelled as association lists of `String × PVal`
(insertion order preserved, first occurrence wins on lookup); machine
floats that only ever hold small decimal literals are modelled as `ℚ`.
-/

/-- A Python value stored in a promotion dict: a string, a number
(`google_reviews` float, modelled as `ℚ`), or `None`. -/
inductive PVal where
  | str (s : String)
  | num (q : ℚ)
  | none
deriving DecidableEq, Repr

/-- A Python dict, as an association list (keys unique in practice). -/
abbrev Promo := List (String × PVal)

/-- `d.get(k)` — `Option.none` models Python `None` for a missing key. -/
def getOpt (p : Promo) (k : String) : Option PVal :=
  match p.find? (fun kv => kv.1 == k) with
  | some kv => some kv.2
  | none => none

/-- `d.get(k, default)`. -/
def pyGetD (p : Promo) (k : String) (default : PVal) : PVal :=
  (getOpt p k).getD default

/-- `d.get(k, "")` for a field that holds a string (non-string or
missing values read as `""`). -/
def getStr (p : Promo) (k : String) : String :=
  match getOpt p k with
  | some (PVal.str s) => s
  | _ => ""

/-- Python truthiness of a stored value. -/
def truthy : PVal → Bool
  | PVal.str s => s ≠ ""
  | PVal.num q => q ≠ 0
  | PVal.none => false

/-- ASCII approximation of the whitespace class used by Python
`str.split()` / `str.strip()`. -/
def pyWs (c : Char) : Bool :=
  c = ' ' || c = '\t' || c = '\n' || c = '\r' ||
  c = Char.ofNat 11 || c = Char.ofNat 12

/-- `s.strip()` on a character list. -/
def pyStrip (l : List Char) : List Char :=
  ((l.dropWhile pyWs).reverse.dropWhile pyWs).reverse

/-- `s.strip()` on strings. -/
def pyStripStr (s : String) : String :=
  String.mk (pyStrip s.data)

/-- Worker for `str.split()`: accumulates the current (reversed) token. -/
def pySplitGo (acc : List Char) : List Char → List (List Char)
  | [] => if acc = [] then [] else [acc.reverse]
  | c :: rest =>
    if pyWs c then
      if acc = [] then pySplitGo [] rest
      else acc.reverse :: pySplitGo [] rest
    else pySplitGo (c :: acc) rest

/-- Python `str.split()` (no argument): maximal runs of non-whitespace. -/
def pySplit (l : List Char) : List (List Char) :=
  pySplitGo [] l

/-- `" ".join(tokens)`. -/
def joinSp : List (List Char) → List Char
  | [] => []
  | [t] => t
  | t :: ts => t ++ ' ' :: joinSp ts

/-- Does `pat` begin the list `l`? -/
def isPrefixList : List Char → List Char → Bool
  | [], _ => true
  | _ :: _, [] => false
  | a :: as, b :: bs => a == b && isPrefixList as bs

/-- Fuel-indexed worker for `removePat`; the fuel bounds the input
length, so the recursion is structural and kernel-reducible. -/
def removePatFuel (pat : List Char) : Nat → List Char → List Char
  | 0, _ => []
  | _, [] => []
  | fuel + 1, c :: rest =>
    if isPrefixList pat (c :: rest) then
      removePatFuel pat fuel (rest.drop (pat.length - 1))
    else
      c :: removePatFuel pat fuel rest

/-- Python `text.replace(pat, "")` for a non-empty `pat`: removes
leftmost non-overlapping occurrences. -/
def removePat (pat : List Char) (l : List Char) : List Char :=
  removePatFuel pat l.length l

theorem removePatFuel_congr (pat : List Char) : ∀ (f1 f2 : Nat) (l : List Char),
    l.length ≤ f1 → l.length ≤ f2 →
    removePatFuel pat f1 l = removePatFuel pat f2 l := by
  intro f1
  induction f1 with
  | zero =>
    intro f2 l h1 _
    have : l = [] := by
      cases l with
      | nil => rfl
      | cons a r => simp at h1
    subst this
    cases f2 <;> rfl
  | succ f1 ih =>
    intro f2 l h1 h2
    cases l with
    | nil => cases f2 <;> rfl
    | cons c rest =>
      cases f2 with
      | zero => simp at h2
      | succ f2 =>
        simp only [removePatFuel]
        by_cases hp : isPrefixList pat (c :: rest) = true
        · rw [if_pos hp, if_pos hp]
          apply ih
          · have := List.length_drop (pat.length - 1) rest
            simp only [List.length_cons] at h1
            omega
          · have := List.length_drop (pat.length - 1) rest
            simp only [List.length_cons] at h2
            omega
        · rw [if_neg hp, if_neg hp]
          congr 1
          apply ih
          · simp only [List.length_cons] at h1; omega
          · simp only [List.length_cons] at h2; omega

theorem removePat_nil (pat : List Char) : removePat pat [] = [] := rfl

theorem removePat_cons (pat : List Char) (c : Char) (rest : List Char) :
    removePat pat (c :: rest) =
      if isPrefixList pat (c :: rest) then
        removePat pat (rest.drop (pat.length - 1))
      else
        c :: removePat pat rest := by
  show removePatFuel pat (rest.length + 1) (c :: rest) = _
  simp only [removePatFuel]
  by_cases hp : isPrefixList pat (c :: rest) = true
  · rw [if_pos hp, if_pos hp]
    apply removePatFuel_congr
    · have := List.length_drop (pat.length - 1) rest
      omega
    · exact le_rfl
  · rw [if_neg hp, if_neg hp]
    rfl

/-- `clean_text` from `app/utils/promo_builder.py`: strips markdown
markers and collapses whitespace. -/
def clean_text (s : String) : String :=
  if s = "" then ""
  else
    let l := s.data
    let l := removePat "**".data l
    let l := removePat "*".data l
    let l := removePat "__".data l
    let l := removePat "_".data l
    let l := removePat "#".data l
    let l := removePat "##".data l
    let l := removePat "###".data l
    String.mk (pyStrip (joinSp (pySplit l)))

/-- `build_standard_promo` from `app/utils/promo_builder.py`.
`date_scraped` (Python `datetime.now()`) is passed in as an argument. -/
def build_standard_promo (competitor : Promo) (promo_url service_name
    promo_description category offer_details ad_title ad_text : String)
    (google_reviews : Option ℚ) (existing_promo : Option Promo)
    (date_scraped : String) : Promo :=
  let new_or_updated : String :=
    match existing_promo with
    | none => "NEW"
    | some e =>
      if e = [] then "NEW"
      else if getOpt e "service_name" = some (PVal.str service_name) ∧
              getOpt e "promo_description" = some (PVal.str promo_description) ∧
              getOpt e "offer_details" = some (PVal.str offer_details) then
        "SAME"
      else "UPDATED"
  [("website", pyGetD competitor "domain" (PVal.str "")),
   ("page_url", PVal.str promo_url),
   ("business_name", pyGetD competitor "name" (PVal.str "")),
   ("google_reviews",
     match google_reviews with
     | some q => PVal.num q
     | none => PVal.none),
   ("service_name", PVal.str (clean_text service_name)),
   ("promo_description", PVal.str (clean_text promo_description)),
   ("category", PVal.str (clean_text category)),
   ("contact", pyGetD competitor "address" (PVal.str "")),
   ("location", pyGetD competitor "address" (PVal.str "")),
   ("offer_details", PVal.str (clean_text offer_details)),
   ("ad_title", PVal.str (clean_text ad_title)),
   ("ad_text", PVal.str (clean_text ad_text)),
   ("new_or_updated", PVal.str new_or_updated),
   ("date_scraped", PVal.str date_scraped)]

/-- The on-disk state of the prior run's promotions file. -/
inductive FileState where
  | missing
  | corrupt
  | parsed (promos : List Promo)

/-- `load_existing_promos` from `app/utils/promo_builder.py`: missing
file or unparsable JSON yields an empty store; otherwise a lookup keyed
by `page_url::service_name` (later entries overwrite earlier ones). -/
def load_existing_promos : FileState → List (String × Promo)
  | FileState.missing => []
  | FileState.corrupt => []
  | FileState.parsed promos =>
    promos.map (fun p => (getStr p "page_url" ++ "::" ++ getStr p "service_name", p))

/-- Python dict lookup on the store built by `load_existing_promos`:
the last binding of a key wins (dict insertion overwrites). -/
def store_lookup (store : List (String × Promo)) (k : String) : Option Promo :=
  match store.reverse.find? (fun kv => kv.1 == k) with
  | some kv => some kv.2
  | none => none

/-- The lookup key built at the `build_standard_promo` call sites
(e.g. `app/scrapers/kal_scraper.py` line 419): raw URL and raw
service name. -/
def promo_key (promo_url service_name : String) : String :=
  promo_url ++ "::" ++ service_name

/-- Python `s.lower()` (ASCII). -/
def pyLower (s : String) : String :=
  String.mk (s.data.map Char.toLower)

/-- Python `s.title()`: uppercase each letter that follows a
non-letter, lowercase the rest. -/
def pyTitle (s : String) : String :=
  String.mk (pyTitleGo false s.data)
where
  pyTitleGo : Bool → List Char → List Char
    | _, [] => []
    | prevAlpha, c :: rest =>
      if c.isAlpha then
        (if prevAlpha then c.toLower else c.toUpper) :: pyTitleGo true rest
      else c :: pyTitleGo false rest

/-- Does `pat` occur as a contiguous sublist of the haystack? -/
def containsList (pat : List Char) : List Char → Bool
  | [] => pat.isEmpty
  | c :: rest => isPrefixList pat (c :: rest) || containsList pat rest

/-- Python `pat in hay` substring test. -/
def strContains (hay pat : String) : Bool :=
  containsList pat.data hay.data

/-- Python slice `s[:n]`. -/
def strTake (s : String) (n : Nat) : String :=
  String.mk (s.data.take n)

/-- Fuel-indexed worker for `lcsLen`; the fuel bounds the combined
input length, so the recursion is structural and kernel-reducible. -/
def lcsLenFuel : Nat → List Char → List Char → Nat
  | 0, _, _ => 0
  | _, [], _ => 0
  | _, _ :: _, [] => 0
  | fuel + 1, a :: as, b :: bs =>
    if a = b then 1 + lcsLenFuel fuel as bs
    else max (lcsLenFuel fuel as (b :: bs)) (lcsLenFuel fuel (a :: as) bs)

/-- Length of a longest common subsequence of two character lists. -/
def lcsLen (l1 l2 : List Char) : Nat :=
  lcsLenFuel (l1.length + l2.length) l1 l2

/-- Modelled from the spec: the fuzzy title/text similarity ratio of
the external fuzzywuzzy library (`fuzz.ratio`), which is not part of
this repository.  Modelled as a normalized common-subsequence
similarity on a 0–100 scale; identical strings score exactly 100, as
the spec's "100% title similarity" requires. -/
def fuzz_ratio (a b : String) : Nat :=
  if a.data.length + b.data.length = 0 then 100
  else (200 * lcsLen a.data b.data) / (a.data.length + b.data.length)

/-- `is_mr_lube` from `app/utils/extraction_flow.py`. -/
def is_mr_lube (competitor : Promo) : Bool :=
  let name := pyLower (getStr competitor "name")
  strContains name "mr" && strContains name "lube"

/-- One field check of `has_valid_promotions`:
`promo.get(field) and str(promo.get(field)).strip()`. -/
def field_ok (p : Promo) (k : String) : Bool :=
  match getOpt p k with
  | some (PVal.str s) => !(s == "") && !(pyStripStr s == "")
  | some (PVal.num q) => !(q == 0)
  | some PVal.none => false
  | none => false

/-- `has_valid_promotions` from `app/utils/extraction_flow.py`. -/
def has_valid_promotions (promos : List Promo) : Bool :=
  if promos = [] then false
  else promos.any (fun p =>
    ["service_name", "promo_description", "offer_details",
     "ad_title", "ad_text"].all (fun k => field_ok p k))

/-- `unified_extraction_flow` from `app/utils/extraction_flow.py`,
with the primary extractor's (pure) result and the AI-overview
extractor's result passed as values.  The second component counts the
calls made to `extract_promo_from_ai_overview`.  The
`check_firecrawl_for_promo_section` probe in the fallback branch is
omitted: it only logs and never touches the returned value. -/
def unified_extraction_flow (competitor : Promo) (primaryResult : List Promo)
    (ai_overview : Option Promo) : List Promo × Nat :=
  if is_mr_lube competitor then
    match ai_overview with
    | some p => ([p], 1)
    | none => ([], 1)
  else if has_valid_promotions primaryResult then (primaryResult, 0)
  else
    match ai_overview with
    | some p => ([p], 1)
    | none => (primaryResult, 1)

/-- Outcome of the primary Firecrawl API request in
`fetch_with_firecrawl` (`app/extractors/firecrawl/firecrawl_client.py`):
a parsed body (possibly empty), a `requests` error
(`RequestException`), or a timeout. -/
inductive ProviderOutcome where
  | ok (html : String)
  | err
  | timeout
deriving DecidableEq, Repr

/-- The dict returned by `fetch_with_firecrawl` (image list omitted). -/
structure FetchResult where
  html : String
  error : Option String
deriving DecidableEq, Repr

/-- `fetch_with_firecrawl` from
`app/extractors/firecrawl/firecrawl_client.py`.  `sdk`, `httpx` and
`zenrows` are `some html` when that fallback call succeeds and `none`
when it raises; the function returns `none` exactly on the code path
that falls off the end of the Python function (httpx failed and no
ZenRows key is configured), where Python returns `None`. -/
def fetch_with_firecrawl (apiKeySet : Bool) (api : ProviderOutcome)
    (sdk : Option String) (httpxBody : Option String)
    (zenrowsKey : Bool) (zenrows : Option String) : Option FetchResult :=
  if !apiKeySet then some ⟨"", some "Firecrawl API key not set"⟩
  else
    match api with
    | ProviderOutcome.ok h => some ⟨h, none⟩
    | ProviderOutcome.timeout => some ⟨"", some "Firecrawl timeout"⟩
    | ProviderOutcome.err =>
      match sdk with
      | some h => some ⟨h, none⟩
      | none =>
        match httpxBody with
        | some h => some ⟨h, none⟩
        | none =>
          if zenrowsKey then
            match zenrows with
            | some h => some ⟨h, none⟩
            | none => some ⟨"", some "All methods failed"⟩
          else none

/-- Splits a maximal run of leading digits off a character list. -/
def takeDigits : List Char → List Char × List Char
  | [] => ([], [])
  | c :: rest =>
    if c.isDigit then
      let (ds, r) := takeDigits rest
      (c :: ds, r)
    else ([], c :: rest)

/-- First match of the regex `\$(\d+(?:\.\d+)?)`, returned as
`"$" + group(1)` the way the midas scraper formats it. -/
def scanDollar : List Char → Option String
  | [] => none
  | c :: rest =>
    if c = '$' then
      match takeDigits rest with
      | ([], _) => scanDollar rest
      | (d :: ds, rest') =>
        match rest' with
        | '.' :: rest2 =>
          match takeDigits rest2 with
          | ([], _) => some (String.mk ('$' :: d :: ds))
          | (f :: fs, _) => some (String.mk ('$' :: (d :: ds) ++ '.' :: f :: fs))
        | _ => some (String.mk ('$' :: d :: ds))
    else scanDollar rest

/-- Digits to a natural number. -/
def digitsToNat (l : List Char) : Nat :=
  l.foldl (fun n c => 10 * n + (c.toNat - '0'.toNat)) 0

/-- First match of the regex `(\d+(?:\.\d+)?)`, parsed as an exact
decimal: `(m, k)` stands for the value `m / 10 ^ k` (`float(...)` in
the kal scraper; the decimal-pair representation keeps the arithmetic
in `ℕ`). -/
def scanNumber : List Char → Option (Nat × Nat)
  | [] => none
  | c :: rest =>
    if c.isDigit then
      let (ds, rest') := takeDigits rest
      match rest' with
      | '.' :: rest2 =>
        match takeDigits rest2 with
        | ([], _) => some (digitsToNat (c :: ds), 0)
        | (f :: fs, _) =>
          some (digitsToNat ((c :: ds) ++ f :: fs), (f :: fs).length)
      | _ => some (digitsToNat (c :: ds), 0)
    else scanNumber rest

/-- `abs(v1 - v2) <= bound` for two decimal values `(m, k)` read as
`m / 10 ^ k`, computed exactly in `ℕ`. -/
def absDiffLe (v1 v2 : Nat × Nat) (bound : Nat) : Bool :=
  let a := v1.1 * 10 ^ v2.2
  let b := v2.1 * 10 ^ v1.2
  (if a ≥ b then a - b else b - a) ≤ bound * 10 ^ (v1.2 + v2.2)

namespace Midas

/-- `extract_brand_name` from `app/scrapers/midas_scraper.py`. -/
def extract_brand_name (text : String) : Option String :=
  let tl := pyLower text
  (["michelin", "bridgestone", "firestone", "goodyear", "continental",
    "pirelli", "bfgoodrich", "toyo", "nitto", "hankook", "falken",
    "kumho", "yokohama", "dunlop", "general", "cooper",
    "uniroyal"].find? (fun b => strContains tl b)).map pyTitle

/-- The discount string the midas predicate works with:
`promo.get("discount_value") or ""`, falling back to the first
`\$(\d+(?:\.\d+)?)` match in `offer_details`. -/
def discount_of (p : Promo) : String :=
  let d := getStr p "discount_value"
  if d = "" then
    match scanDollar (getStr p "offer_details").data with
    | some s => s
    | none => ""
  else d

/-- `(promo.get("ad_title") or promo.get("service_name", "")).lower()`. -/
def quick_title (p : Promo) : String :=
  pyLower (if getStr p "ad_title" = "" then getStr p "service_name"
           else getStr p "ad_title")

/-- The brand the midas predicate extracts from a record: scan the
lowercased concatenation of `promo_description`, `ad_text` and
`offer_details`. -/
def brand_of (p : Promo) : Option String :=
  extract_brand_name (pyLower (getStr p "promo_description" ++ " " ++
    getStr p "ad_text" ++ " " ++ getStr p "offer_details"))

/-- `are_promos_duplicate` from `app/scrapers/midas_scraper.py`
(lines 556–630), return points flattened into an if-chain. -/
def are_promos_duplicate (p1 p2 : Promo) : Bool :=
  let d1 := discount_of p1
  let d2 := discount_of p2
  let page1 := getStr p1 "page_url"
  let page2 := getStr p2 "page_url"
  let t1 := quick_title p1
  let t2 := quick_title p2
  if page1 = page2 ∧ t1 ≠ "" ∧ t2 ≠ "" ∧
     fuzz_ratio (strTake t1 120) (strTake t2 120) ≥ 90 then true
  else
    let b1 := brand_of p1
    let b2 := brand_of p2
    if d1 ≠ "" ∧ d2 ≠ "" ∧ d1 ≠ d2 then false
    else if b1 ≠ Option.none ∧ b2 ≠ Option.none ∧ b1 ≠ b2 then false
    else if ((b1 ≠ Option.none ∧ b2 = Option.none) ∨
             (b2 ≠ Option.none ∧ b1 = Option.none)) ∧
            fuzz_ratio (strTake t1 200) (strTake t2 200) < 95 then false
    else
      let desc1 := pyLower (getStr p1 "promo_description")
      let desc2 := pyLower (getStr p2 "promo_description")
      let title_sim := fuzz_ratio (strTake t1 200) (strTake t2 200)
      let desc_sim := fuzz_ratio (strTake desc1 300) (strTake desc2 300)
      if title_sim ≥ 95 ∧ desc_sim ≥ 90 then true
      else if d1 ≠ "" ∧ d2 ≠ "" ∧ d1 = d2 ∧ desc_sim ≥ 90 then true
      else false

end Midas

namespace Kal

/-- `extract_brand_name` from `app/scrapers/kal_scraper.py` (the list
repeats "bfgoodrich", as the source does). -/
def extract_brand_name (text : String) : Option String :=
  let tl := pyLower text
  (["michelin", "bridgestone", "goodyear", "continental", "pirelli",
    "bfgoodrich", "bfgoodrich", "toyo", "nitto", "hankook", "falken",
    "kumho", "yokohama", "dunlop", "firestone", "general", "cooper",
    "uniroyal", "nexen", "hercules", "mastercraft",
    "goodrich"].find? (fun b => strContains tl b)).map pyTitle

/-- `calculate_title_overlap` from `app/scrapers/kal_scraper.py`:
Jaccard word-set overlap on a 0–100 scale. -/
def calculate_title_overlap (t1 t2 : String) : ℚ :=
  let w1 := (pySplit (pyLower t1).data).dedup
  let w2 := (pySplit (pyLower t2).data).dedup
  if w1 = [] ∨ w2 = [] then 0
  else
    let inter := (w1.filter (fun w => decide (w ∈ w2))).length
    let union := (w1 ++ w2.filter (fun w => decide (w ∉ w1))).length
    if union = 0 then 0 else (inter * 100 : ℚ) / union

/-- `promo.get("brand_name") or extract_brand_name(promo.get("promotion_title", ""))`. -/
def brand_of (p : Promo) : Option String :=
  if getStr p "brand_name" ≠ "" then some (getStr p "brand_name")
  else extract_brand_name (getStr p "promotion_title")

/-- `are_promos_duplicate` from `app/scrapers/kal_scraper.py`
(lines 93–134): exact brand+discount match, same brand with discount
within $5, or same discount with ≥85% title overlap and matching or
both-unknown brands. -/
def are_promos_duplicate (p1 p2 : Promo) : Bool :=
  let b1 := brand_of p1
  let b2 := brand_of p2
  let d1 := getStr p1 "discount_value"
  let d2 := getStr p2 "discount_value"
  let t1 := getStr p1 "promotion_title"
  let t2 := getStr p2 "promotion_title"
  let brandEq : Bool :=
    match b1, b2 with
    | some x, some y => pyLower x == pyLower y
    | _, _ => false
  let rule12 : Bool :=
    brandEq &&
      ((!(d1 == "") && !(d2 == "") && d1 == d2) ||
       (!(d1 == "") && !(d2 == "") &&
         (match scanNumber d1.data, scanNumber d2.data with
          | some v1, some v2 => absDiffLe v1 v2 5
          | _, _ => false)))
  let rule3 : Bool :=
    !(d1 == "") && !(d2 == "") && d1 == d2 &&
      (brandEq || (b1 == Option.none && b2 == Option.none)) &&
      decide (calculate_title_overlap t1 t2 ≥ 85)
  rule12 || rule3

/-- `keep_better_promo` from `app/scrapers/kal_scraper.py`: most
non-empty fields, ties broken by longer `offer_details`. -/
def keep_better_promo (p1 p2 : Promo) : Promo :=
  let f1 := (p1.filter (fun kv =>
    truthy kv.2 && !(kv.1 == "date_scraped") && !(kv.1 == "ocr_hash"))).length
  let f2 := (p2.filter (fun kv =>
    truthy kv.2 && !(kv.1 == "date_scraped") && !(kv.1 == "ocr_hash"))).length
  let l1 := (getStr p1 "offer_details").length
  let l2 := (getStr p2 "offer_details").length
  if f1 > f2 || (f1 == f2 && l1 > l2) then p1 else p2

/-- Python `list.remove(x)`: drop the first element equal to `x`. -/
def listRemove (l : List Promo) (x : Promo) : List Promo :=
  match l with
  | [] => []
  | a :: r => if a = x then r else a :: listRemove r x

/-- The deduplication loop of `process_kal_promotions`
(`app/scrapers/kal_scraper.py` lines 443–467): each promo is checked
against the kept list; on the first duplicate the better record wins,
a winning newcomer replacing the kept one at the end of the list. -/
def dedup_go (acc : List Promo) : List Promo → List Promo
  | [] => acc
  | p :: ps =>
    match acc.find? (fun e => are_promos_duplicate p e) with
    | none => dedup_go (acc ++ [p]) ps
    | some e =>
      if keep_better_promo p e = p then
        dedup_go (listRemove acc e ++ [p]) ps
      else dedup_go acc ps

/-- The whole kal deduplication pass. -/
def deduplicate (ps : List Promo) : List Promo :=
  dedup_go [] ps

end Kal

namespace Fountain

/-- The deduplication loop of `process_fountain_promotions`
(`app/scrapers/fountain_scraper.py` lines 695–726), generic in the
duplicate predicate `dup` (the scraper's `are_promos_duplicate`) and
the composite-key function `ckey`: a promo is dropped when it matches
a kept promo or repeats a non-empty composite key; kept promos are
never replaced. -/
def dedup_go (dup : Promo → Promo → Bool) (ckey : Promo → String) :
    List Promo → List Promo → List String → List Promo
  | [], _, _ => []
  | p :: ps, seen, keys =>
    let k := ckey p
    if seen.any (fun e => dup p e) || (!(k == "") && keys.contains k) then
      dedup_go dup ckey ps seen keys
    else
      p :: dedup_go dup ckey ps (seen ++ [p])
            (if k == "" then keys else keys ++ [k])

/-- The whole fountain deduplication pass. -/
def deduplicate (dup : Promo → Promo → Bool) (ckey : Promo → String)
    (xs : List Promo) : List Promo :=
  dedup_go dup ckey xs [] []

end Fountain

/-! ### Lemmas about the text-normalization helpers -/

theorem removePat_single_eq (c : Char) : ∀ l : List Char,
    removePat [c] l = l.filter (fun x => decide (x ≠ c)) := by
  intro l
  induction l with
  | nil => simp [removePat_nil]
  | cons d rest ih =>
    rw [removePat_cons]
    by_cases hdc : c = d
    · subst hdc
      simp [isPrefixList, ih]
    · have hb : (c == d) = false := by simp [hdc]
      simp [isPrefixList, hb, ih, Ne.symm hdc]

theorem removePat_sublist_aux (n : Nat) : ∀ (pat l : List Char),
    l.length ≤ n → (removePat pat l).Sublist l := by
  induction n with
  | zero =>
    intro pat l h
    have : l = [] := by
      cases l with
      | nil => rfl
      | cons a r => simp at h
    subst this
    simp [removePat_nil]
  | succ n ih =>
    intro pat l h
    cases l with
    | nil => simp [removePat_nil]
    | cons c rest =>
      rw [removePat_cons]
      by_cases hp : isPrefixList pat (c :: rest) = true
      · rw [if_pos hp]
        have h1 : (rest.drop (pat.length - 1)).length ≤ n := by
          have := List.length_drop (pat.length - 1) rest
          simp only [List.length_cons] at h
          omega
        exact ((ih pat _ h1).trans (List.drop_sublist _ _)).trans
          (List.sublist_cons_self c rest)
      · rw [if_neg hp]
        exact List.Sublist.cons₂ c (ih pat rest (by
          simp only [List.length_cons] at h; omega))

theorem removePat_sublist (pat l : List Char) :
    (removePat pat l).Sublist l :=
  removePat_sublist_aux l.length pat l le_rfl

theorem not_mem_removePat_single (c : Char) (l : List Char) :
    c ∉ removePat [c] l := by
  rw [removePat_single_eq]
  intro h
  have := List.of_mem_filter h
  simp at this

/-- The char-level replace chain of `clean_text` leaves no markdown
marker characters. -/
theorem replace_chain_no_markers (l : List Char) :
    ∀ x ∈ removePat "###".data (removePat "##".data (removePat "#".data
      (removePat "_".data (removePat "__".data (removePat "*".data
        (removePat "**".data l)))))),
      x ≠ '*' ∧ x ≠ '_' ∧ x ≠ '#' := by
  intro x hx
  set l2 := removePat "*".data (removePat "**".data l) with hl2
  set l4 := removePat "_".data (removePat "__".data l2) with hl4
  set l5 := removePat "#".data l4 with hl5
  have h45 : x ∈ l5 :=
    (removePat_sublist "##".data l5).subset
      ((removePat_sublist "###".data _).subset hx)
  have h4 : x ∈ l4 := (removePat_sublist "#".data l4).subset h45
  have h2 : x ∈ l2 := (removePat_sublist "__".data l2).subset
    ((removePat_sublist "_".data _).subset h4)
  refine ⟨?_, ?_, ?_⟩
  · rintro rfl
    exact not_mem_removePat_single '*' (removePat "**".data l) h2
  · rintro rfl
    exact not_mem_removePat_single '_' (removePat "__".data l2) h4
  · rintro rfl
    exact not_mem_removePat_single '#' l4 h45

/-- Tokens produced by `pySplitGo` are non-empty, whitespace-free, and
draw their characters from the accumulator or the input. -/
theorem pySplitGo_spec : ∀ (l acc : List Char),
    (∀ c ∈ acc, pyWs c = false) →
    ∀ t ∈ pySplitGo acc l,
      t ≠ [] ∧ (∀ c ∈ t, pyWs c = false) ∧ (∀ c ∈ t, c ∈ acc ∨ c ∈ l) := by
  intro l
  induction l with
  | nil =>
    intro acc hacc t ht
    by_cases h : acc = []
    · simp [pySplitGo, h] at ht
    · simp [pySplitGo, h] at ht
      subst ht
      refine ⟨by simpa using h, ?_, ?_⟩
      · intro c hc
        exact hacc c (by simpa using hc)
      · intro c hc
        exact Or.inl (by simpa using hc)
  | cons d rest ih =>
    intro acc hacc t ht
    by_cases hws : pyWs d = true
    · by_cases h : acc = []
      · simp [pySplitGo, hws, h] at ht
        have := ih [] (by simp) t ht
        exact ⟨this.1, this.2.1, fun c hc =>
          Or.inr (List.mem_cons_of_mem d ((this.2.2 c hc).resolve_left (by simp)))⟩
      · simp [pySplitGo, hws, h] at ht
        rcases ht with ht | ht
        · subst ht
          refine ⟨by simpa using h, ?_, ?_⟩
          · intro c hc
            exact hacc c (by simpa using hc)
          · intro c hc
            exact Or.inl (by simpa using hc)
        · have := ih [] (by simp) t ht
          exact ⟨this.1, this.2.1, fun c hc =>
            Or.inr (List.mem_cons_of_mem d ((this.2.2 c hc).resolve_left (by simp)))⟩
    · have hws' : pyWs d = false := by simpa using hws
      simp [pySplitGo, hws'] at ht
      have hacc' : ∀ c ∈ d :: acc, pyWs c = false := by
        intro c hc
        rcases List.mem_cons.mp hc with rfl | hc
        · exact hws'
        · exact hacc c hc
      have := ih (d :: acc) hacc' t ht
      refine ⟨this.1, this.2.1, fun c hc => ?_⟩
      rcases this.2.2 c hc with h1 | h1
      · rcases List.mem_cons.mp h1 with rfl | h1
        · exact Or.inr (List.mem_cons_self c rest)
        · exact Or.inl h1
      · exact Or.inr (List.mem_cons_of_mem d h1)

theorem pySplit_spec (l : List Char) :
    ∀ t ∈ pySplit l, t ≠ [] ∧ (∀ c ∈ t, pyWs c = false) ∧ (∀ c ∈ t, c ∈ l) := by
  intro t ht
  have := pySplitGo_spec l [] (by simp) t ht
  exact ⟨this.1, this.2.1, fun c hc => (this.2.2 c hc).resolve_left (by simp)⟩

/-- Adjacent-whitespace relation used to state "no two consecutive
whitespace characters". -/
def noWsPair (a b : Char) : Prop := ¬(pyWs a = true ∧ pyWs b = true)

theorem chain'_of_all_no_ws : ∀ l : List Char,
    (∀ c ∈ l, pyWs c = false) → l.Chain' noWsPair := by
  intro l
  induction l with
  | nil => intro; simp
  | cons a l ih =>
    intro h
    rw [List.chain'_cons']
    refine ⟨fun y _ => ?_, ih (fun c hc => h c (List.mem_cons_of_mem a hc))⟩
    intro hcon
    rw [h a (List.mem_cons_self a l)] at hcon
    exact Bool.false_ne_true hcon.1

theorem joinSp_ne_nil : ∀ (t : List Char) (ts : List (List Char)),
    t ≠ [] → joinSp (t :: ts) ≠ [] := by
  intro t ts ht
  cases ts with
  | nil => simpa [joinSp] using ht
  | cons t' ts' =>
    simp only [joinSp]
    intro h
    rcases List.append_eq_nil.mp h with ⟨h1, _⟩
    exact ht h1

theorem mem_of_getLast?_mem {l : List Char} {c : Char}
    (h : c ∈ l.getLast?) : c ∈ l := by
  rcases List.mem_getLast?_eq_getLast h with ⟨hne, rfl⟩
  exact List.getLast_mem hne

/-- Joining non-empty whitespace-free tokens with single spaces yields
a list with no two adjacent whitespace characters and non-whitespace
ends. -/
theorem joinSp_spec : ∀ ts : List (List Char),
    (∀ t ∈ ts, t ≠ [] ∧ ∀ c ∈ t, pyWs c = false) →
    (joinSp ts).Chain' noWsPair ∧
    (∀ c, (joinSp ts).head? = some c → pyWs c = false) ∧
    (∀ c, (joinSp ts).getLast? = some c → pyWs c = false) := by
  intro ts
  induction ts with
  | nil => intro; refine ⟨by simp [joinSp], by simp [joinSp], by simp [joinSp]⟩
  | cons t ts ih =>
    intro h
    have ht := h t (List.mem_cons_self t ts)
    have hts : ∀ t' ∈ ts, t' ≠ [] ∧ ∀ c ∈ t', pyWs c = false :=
      fun t' h' => h t' (List.mem_cons_of_mem t h')
    cases ts with
    | nil =>
      simp only [joinSp]
      refine ⟨chain'_of_all_no_ws t ht.2, ?_, ?_⟩
      · intro c hc
        exact ht.2 c (List.mem_of_mem_head? hc)
      · intro c hc
        exact ht.2 c (mem_of_getLast?_mem hc)
    | cons t' ts' =>
      have ihs := ih hts
      have hne : joinSp (t' :: ts') ≠ [] :=
        joinSp_ne_nil t' ts' (hts t' (List.mem_cons_self t' ts')).1
      have hjoin : joinSp (t :: t' :: ts') = t ++ ' ' :: joinSp (t' :: ts') := rfl
      rw [hjoin]
      refine ⟨?_, ?_, ?_⟩
      · rw [List.chain'_append]
        refine ⟨chain'_of_all_no_ws t ht.2, ?_, ?_⟩
        · rw [List.chain'_cons']
          refine ⟨?_, ihs.1⟩
          intro y hy
          intro hcon
          exact Bool.false_ne_true ((ihs.2.1 y hy) ▸ hcon.2)
        · intro x hx y hy
          simp only [List.head?_cons, Option.mem_def, Option.some.injEq] at hy
          subst hy
          intro hcon
          exact Bool.false_ne_true ((ht.2 x (mem_of_getLast?_mem hx)) ▸ hcon.1)
      · intro c hc
        rcases List.exists_cons_of_ne_nil ht.1 with ⟨a, t0, rfl⟩
        simp only [List.cons_append, List.head?_cons, Option.some.injEq] at hc
        subst hc
        exact ht.2 _ (List.mem_cons_self _ t0)
      · intro c hc
        rw [List.getLast?_append_of_ne_nil _ (by simp)] at hc
        rcases List.exists_cons_of_ne_nil hne with ⟨b, r0, hr⟩
        rw [hr, List.getLast?_cons_cons] at hc
        exact ihs.2.2 c (by rw [hr]; exact hc)

theorem pyStrip_eq_self (l : List Char)
    (h1 : ∀ c, l.head? = some c → pyWs c = false)
    (h2 : ∀ c, l.getLast? = some c → pyWs c = false) :
    pyStrip l = l := by
  cases l with
  | nil => rfl
  | cons a r =>
    have ha : pyWs a = false := h1 a rfl
    unfold pyStrip
    rw [List.dropWhile_cons, ha]
    simp only [Bool.false_eq_true, if_false]
    rcases hrev : (a :: r).reverse with _ | ⟨b, r2⟩
    · exact absurd (congrArg List.length hrev) (by simp)
    · have hb : pyWs b = false := by
        apply h2
        have hhead : (a :: r).reverse.head? = some b := by rw [hrev]; rfl
        rwa [List.head?_reverse] at hhead
      rw [List.dropWhile_cons, hb]
      simp only [Bool.false_eq_true, if_false]
      rw [← hrev, List.reverse_reverse]

theorem mem_joinSp : ∀ (ts : List (List Char)) (c : Char),
    c ∈ joinSp ts → (∃ t ∈ ts, c ∈ t) ∨ c = ' ' := by
  intro ts
  induction ts with
  | nil => intro c hc; simp [joinSp] at hc
  | cons t ts ih =>
    intro c hc
    cases ts with
    | nil =>
      exact Or.inl ⟨t, List.mem_cons_self t [], by simpa [joinSp] using hc⟩
    | cons t' ts' =>
      simp only [joinSp, List.mem_append, List.mem_cons] at hc
      rcases hc with hc | hc | hc
      · exact Or.inl ⟨t, List.mem_cons_self t _, hc⟩
      · exact Or.inr hc
      · rcases ih c hc with ⟨u, hu, hcu⟩ | hc
        · exact Or.inl ⟨u, List.mem_cons_of_mem t hu, hcu⟩
        · exact Or.inr hc

/-- No markdown marker character survives `clean_text`. -/
def no_markdown (s : String) : Prop :=
  ∀ c ∈ s.data, c ≠ '*' ∧ c ≠ '_' ∧ c ≠ '#'

/-- Neither end of the string is whitespace. -/
def no_edge_ws (s : String) : Prop :=
  (∀ c, s.data.head? = some c → pyWs c = false) ∧
  (∀ c, s.data.getLast? = some c → pyWs c = false)

/-- No two adjacent characters are both whitespace. -/
def no_double_ws (s : String) : Prop :=
  s.data.Chain' noWsPair

/-- Every output of `clean_text` is free of markdown markers, has no
leading or trailing whitespace, and no two consecutive whitespace
characters. -/
theorem clean_text_spec (s : String) :
    no_markdown (clean_text s) ∧ no_edge_ws (clean_text s) ∧
    no_double_ws (clean_text s) := by
  by_cases hs : s = ""
  · subst hs
    refine ⟨?_, ⟨?_, ?_⟩, ?_⟩ <;> simp [clean_text, no_markdown, no_double_ws]
  · have hct : clean_text s = String.mk (pyStrip (joinSp (pySplit
        (removePat "###".data (removePat "##".data (removePat "#".data
          (removePat "_".data (removePat "__".data (removePat "*".data
            (removePat "**".data s.data)))))))))) := by
      simp only [clean_text, if_neg hs]
    set L := removePat "###".data (removePat "##".data (removePat "#".data
      (removePat "_".data (removePat "__".data (removePat "*".data
        (removePat "**".data s.data)))))) with hL
    have htok := pySplit_spec L
    have hjoin := joinSp_spec (pySplit L)
      (fun t ht => ⟨(htok t ht).1, (htok t ht).2.1⟩)
    have hstrip : pyStrip (joinSp (pySplit L)) = joinSp (pySplit L) :=
      pyStrip_eq_self _ hjoin.2.1 hjoin.2.2
    have hdata : (clean_text s).data = joinSp (pySplit L) := by
      rw [hct, hstrip]
    refine ⟨?_, ⟨?_, ?_⟩, ?_⟩
    · intro c hc
      rw [hdata] at hc
      rcases mem_joinSp _ c hc with ⟨t, ht, hct'⟩ | rfl
      · exact replace_chain_no_markers s.data c ((htok t ht).2.2 c hct')
      · refine ⟨by decide, by decide, by decide⟩
    · intro c hc
      rw [hdata] at hc
      exact hjoin.2.1 c hc
    · intro c hc
      rw [hdata] at hc
      exact hjoin.2.2 c hc
    · show (clean_text s).data.Chain' noWsPair
      rw [hdata]
      exact hjoin.1

/-! ### Claim theorems -/

/-- All three normalization invariants of a `clean_text` output. -/
def clean_invariants (s : String) : Prop :=
  no_markdown s ∧ no_edge_ws s ∧ no_double_ws s

/-- C9: in every record returned by `build_standard_promo`, the
`contact` field and the `location` field are equal, and both hold the
competitor's address (empty string when the competitor has none). -/
theorem c9_contact_location_address (competitor : Promo)
    (promo_url service_name promo_description category offer_details
      ad_title ad_text : String) (google_reviews : Option ℚ)
    (existing_promo : Option Promo) (date_scraped : String) :
    let r := build_standard_promo competitor promo_url service_name
      promo_description category offer_details ad_title ad_text
      google_reviews existing_promo date_scraped
    getOpt r "contact" = getOpt r "location" ∧
    getOpt r "contact" = some (pyGetD competitor "address" (PVal.str "")) := by
  intro r
  exact ⟨rfl, rfl⟩

/-- C7: a missing or unreadable promotions file loads as an empty
store (the loader is a total function, so no exception is possible in
the model), every lookup in that store misses, and a record built
against such a lookup is classified `NEW`. -/
theorem c7_missing_or_corrupt_store_new :
    load_existing_promos FileState.missing = [] ∧
    load_existing_promos FileState.corrupt = [] ∧
    (∀ k, store_lookup (load_existing_promos FileState.missing) k = Option.none) ∧
    (∀ k, store_lookup (load_existing_promos FileState.corrupt) k = Option.none) ∧
    (∀ (competitor : Promo) (promo_url service_name promo_description category
        offer_details ad_title ad_text : String) (google_reviews : Option ℚ)
        (date_scraped : String),
      getOpt (build_standard_promo competitor promo_url service_name
          promo_description category offer_details ad_title ad_text
          google_reviews
          (store_lookup (load_existing_promos FileState.corrupt)
            (promo_key promo_url service_name))
          date_scraped) "new_or_updated" = some (PVal.str "NEW")) := by
  refine ⟨rfl, rfl, fun k => rfl, fun k => rfl, ?_⟩
  intro competitor promo_url service_name promo_description category
    offer_details ad_title ad_text google_reviews date_scraped
  rfl

/-- C10: the six text fields of every `build_standard_promo` record
are exactly the `clean_text` normalizations of the corresponding
inputs, and therefore contain no markdown marker characters, no
leading or trailing whitespace, and no two consecutive whitespace
characters. -/
theorem c10_normalized_fields (competitor : Promo)
    (promo_url service_name promo_description category offer_details
      ad_title ad_text : String) (google_reviews : Option ℚ)
    (existing_promo : Option Promo) (date_scraped : String) :
    let r := build_standard_promo competitor promo_url service_name
      promo_description category offer_details ad_title ad_text
      google_reviews existing_promo date_scraped
    (getOpt r "service_name" = some (PVal.str (clean_text service_name)) ∧
      clean_invariants (clean_text service_name)) ∧
    (getOpt r "promo_description" = some (PVal.str (clean_text promo_description)) ∧
      clean_invariants (clean_text promo_description)) ∧
    (getOpt r "category" = some (PVal.str (clean_text category)) ∧
      clean_invariants (clean_text category)) ∧
    (getOpt r "offer_details" = some (PVal.str (clean_text offer_details)) ∧
      clean_invariants (clean_text offer_details)) ∧
    (getOpt r "ad_title" = some (PVal.str (clean_text ad_title)) ∧
      clean_invariants (clean_text ad_title)) ∧
    (getOpt r "ad_text" = some (PVal.str (clean_text ad_text)) ∧
      clean_invariants (clean_text ad_text)) := by
  intro r
  exact ⟨⟨rfl, clean_text_spec service_name⟩,
    ⟨rfl, clean_text_spec promo_description⟩,
    ⟨rfl, clean_text_spec category⟩,
    ⟨rfl, clean_text_spec offer_details⟩,
    ⟨rfl, clean_text_spec ad_title⟩,
    ⟨rfl, clean_text_spec ad_text⟩⟩

/-- C1 counterexample: with every input empty, `build_standard_promo`
returns a record in which all eleven string fields are the empty
string — no deterministic fallback text is inserted. -/
theorem c1_counterexample :
    let r := build_standard_promo [] "" "" "" "" "" "" "" Option.none
      Option.none ""
    getOpt r "website" = some (PVal.str "") ∧
    getOpt r "page_url" = some (PVal.str "") ∧
    getOpt r "business_name" = some (PVal.str "") ∧
    getOpt r "service_name" = some (PVal.str "") ∧
    getOpt r "promo_description" = some (PVal.str "") ∧
    getOpt r "category" = some (PVal.str "") ∧
    getOpt r "contact" = some (PVal.str "") ∧
    getOpt r "location" = some (PVal.str "") ∧
    getOpt r "offer_details" = some (PVal.str "") ∧
    getOpt r "ad_title" = some (PVal.str "") ∧
    getOpt r "ad_text" = some (PVal.str "") := by
  intro r
  exact ⟨rfl, rfl, rfl, rfl, rfl, rfl, rfl, rfl, rfl, rfl, rfl⟩

/-- C1 amended: every string field of a `build_standard_promo` record
mirrors its input — the six text arguments pass through `clean_text`,
the competitor fields and URL are copied verbatim with an
empty-string default — and an empty input stays empty
(`clean_text "" = ""`); no fallback text is ever inserted. -/
theorem c1_no_fallback_text (competitor : Promo)
    (promo_url service_name promo_description category offer_details
      ad_title ad_text : String) (google_reviews : Option ℚ)
    (existing_promo : Option Promo) (date_scraped : String) :
    let r := build_standard_promo competitor promo_url service_name
      promo_description category offer_details ad_title ad_text
      google_reviews existing_promo date_scraped
    getOpt r "website" = some (pyGetD competitor "domain" (PVal.str "")) ∧
    getOpt r "page_url" = some (PVal.str promo_url) ∧
    getOpt r "business_name" = some (pyGetD competitor "name" (PVal.str "")) ∧
    getOpt r "service_name" = some (PVal.str (clean_text service_name)) ∧
    getOpt r "promo_description" = some (PVal.str (clean_text promo_description)) ∧
    getOpt r "category" = some (PVal.str (clean_text category)) ∧
    getOpt r "contact" = some (pyGetD competitor "address" (PVal.str "")) ∧
    getOpt r "location" = some (pyGetD competitor "address" (PVal.str "")) ∧
    getOpt r "offer_details" = some (PVal.str (clean_text offer_details)) ∧
    getOpt r "ad_title" = some (PVal.str (clean_text ad_title)) ∧
    getOpt r "ad_text" = some (PVal.str (clean_text ad_text)) ∧
    clean_text "" = "" := by
  intro r
  exact ⟨rfl, rfl, rfl, rfl, rfl, rfl, rfl, rfl, rfl, rfl, rfl, rfl⟩

/-- Prior-run record used by the C3 counterexample. -/
def c3_prior : Promo :=
  [("page_url", PVal.str "u"), ("service_name", PVal.str "oil change"),
   ("promo_description", PVal.str "A"), ("offer_details", PVal.str "B")]

/-- Store loaded from the prior run for the C3 counterexample. -/
def c3_store : List (String × Promo) :=
  load_existing_promos (FileState.parsed [c3_prior])

/-- Record built in the current run for the C3 counterexample: the raw
`service_name` input `"oil  change"` normalizes to `"oil change"`. -/
def c3_record : Promo :=
  build_standard_promo [] "u" "oil  change" "A" "x" "B" "t" "tx" Option.none
    (store_lookup c3_store (promo_key "u" "oil  change")) "d"

/-- C3 counterexample: the store holds a prior record under the new
record's key `(page_url, service_name) = ("u", "oil change")` whose
`service_name`, `promo_description` and `offer_details` all equal the
new record's, so the claim classifies it `SAME`; the code looks up
with the raw pre-normalization key `"u::oil  change"`, misses, and
classifies it `NEW`. -/
theorem c3_counterexample :
    getOpt c3_record "new_or_updated" = some (PVal.str "NEW") ∧
    getOpt c3_record "page_url" = some (PVal.str "u") ∧
    getOpt c3_record "service_name" = some (PVal.str "oil change") ∧
    store_lookup c3_store (promo_key "u" "oil change") = some c3_prior ∧
    getOpt c3_prior "service_name" = getOpt c3_record "service_name" ∧
    getOpt c3_prior "promo_description" = getOpt c3_record "promo_description" ∧
    getOpt c3_prior "offer_details" = getOpt c3_record "offer_details" ∧
    "NEW" ≠ "SAME" := by
  decide

/-- C3 amended: change classification is a pure function of the raw
extraction inputs and the store — the lookup key and the SAME/UPDATED
comparison both use the raw (pre-`clean_text`) arguments; when the raw
inputs are already normalized (`clean_text` fixed points, as every
stored record's fields are), this coincides with comparing the prior
record's fields against the new record's fields, as the claim words
it. -/
theorem c3_change_classification (store : List (String × Promo))
    (competitor : Promo) (promo_url service_name promo_description category
      offer_details ad_title ad_text : String) (google_reviews : Option ℚ)
    (date_scraped : String) :
    let L := store_lookup store (promo_key promo_url service_name)
    let B := build_standard_promo competitor promo_url service_name
      promo_description category offer_details ad_title ad_text
      google_reviews L date_scraped
    (getOpt B "new_or_updated" = some (PVal.str
      (match L with
       | Option.none => "NEW"
       | some e =>
         if e = [] then "NEW"
         else if getOpt e "service_name" = some (PVal.str service_name) ∧
                 getOpt e "promo_description" = some (PVal.str promo_description) ∧
                 getOpt e "offer_details" = some (PVal.str offer_details) then
           "SAME"
         else "UPDATED"))) ∧
    (clean_text service_name = service_name →
     clean_text promo_description = promo_description →
     clean_text offer_details = offer_details →
     getOpt B "new_or_updated" = some (PVal.str
      (match L with
       | Option.none => "NEW"
       | some e =>
         if e = [] then "NEW"
         else if getOpt e "service_name" = getOpt B "service_name" ∧
                 getOpt e "promo_description" = getOpt B "promo_description" ∧
                 getOpt e "offer_details" = getOpt B "offer_details" then
           "SAME"
         else "UPDATED"))) := by
  intro L B
  refine ⟨rfl, ?_⟩
  intro hs hp ho
  have h1 : getOpt B "service_name" = some (PVal.str service_name) := by
    show some (PVal.str (clean_text service_name)) = some (PVal.str service_name)
    rw [hs]
  have h2 : getOpt B "promo_description" = some (PVal.str promo_description) := by
    show some (PVal.str (clean_text promo_description)) = some (PVal.str promo_description)
    rw [hp]
  have h3 : getOpt B "offer_details" = some (PVal.str offer_details) := by
    show some (PVal.str (clean_text offer_details)) = some (PVal.str offer_details)
    rw [ho]
  rw [h1, h2, h3]
  rfl

/-- C3 witness: with an empty store every lookup misses and the
built record is classified `NEW`. -/
theorem c3_change_classification_witness :
    getOpt (build_standard_promo [] "u" "tires" "A" "B" "C" "D" "E"
      Option.none (store_lookup [] (promo_key "u" "tires")) "d")
      "new_or_updated" = some (PVal.str "NEW") :=
  (c3_change_classification [] [] "u" "tires" "A" "B" "C" "D" "E"
    Option.none "d").2 (by decide) (by decide) (by decide)

/-- Competitor triggering the always-secondary path in the C5
counterexample. -/
def c5_competitor : Promo := [("name", PVal.str "Mr. Lube")]

/-- A non-empty but invalid primary result for the C5 counterexample. -/
def c5_primary : List Promo := [[("service_name", PVal.str "x")]]

/-- C5 counterexample: for a Mr. Lube competitor the orchestrator
skips the primary extractor entirely; with a null secondary result it
returns the empty list, not the primary's (non-empty, invalid)
output as the claim requires. -/
theorem c5_counterexample :
    is_mr_lube c5_competitor = true ∧
    has_valid_promotions c5_primary = false ∧
    unified_extraction_flow c5_competitor c5_primary Option.none = ([], 1) ∧
    c5_primary ≠ [] := by
  decide

/-- C5 amended: for every competitor that is not Mr. Lube, when the
primary result has no valid promotion the flow calls the AI-overview
extractor exactly once and returns its single-record result when
non-null, else the primary's own output. -/
theorem c5_fallback_flow (competitor : Promo) (primaryResult : List Promo)
    (ai : Option Promo)
    (hm : is_mr_lube competitor = false)
    (hv : has_valid_promotions primaryResult = false) :
    unified_extraction_flow competitor primaryResult ai =
      ((match ai with
        | some p => [p]
        | Option.none => primaryResult), 1) := by
  cases ai with
  | none => simp [unified_extraction_flow, hm, hv]
  | some p => simp [unified_extraction_flow, hm, hv]

/-- C5 witness: a non-Mr.-Lube competitor with an empty primary result
and a non-null secondary result yields that single record. -/
theorem c5_fallback_flow_witness :
    unified_extraction_flow [("name", PVal.str "Speedy")] []
      (some [("ad_title", PVal.str "Deal")]) =
      ([[("ad_title", PVal.str "Deal")]], 1) :=
  c5_fallback_flow _ _ _ (by decide) (by decide)

/-- C6 counterexample: when the Firecrawl API call times out, the
fetch returns an error result immediately even though every later
provider would have returned valid HTML — a timeout does not advance
the cascade. -/
theorem c6_counterexample :
    fetch_with_firecrawl true ProviderOutcome.timeout
      (some "<html>promos</html>") (some "<html>promos</html>") true
      (some "<html>promos</html>") =
      some { html := "", error := some "Firecrawl timeout" } ∧
    ("" : String) ≠ "<html>promos</html>" := by
  exact ⟨rfl, by decide⟩

/-- C6 amended: only a `requests` HTTP error advances the cascade —
through the SDK, then httpx, then ZenRows, each later success being
returned with no error; a timeout returns an error result at once, an
empty body is returned as a success without advancing, and a missing
API key short-circuits everything. -/
theorem c6_error_cascade (h : String) (zenrowsKey : Bool)
    (zenrows : Option String) :
    fetch_with_firecrawl true ProviderOutcome.err (some h) Option.none
      zenrowsKey zenrows = some { html := h, error := Option.none } ∧
    fetch_with_firecrawl true ProviderOutcome.err Option.none (some h)
      zenrowsKey zenrows = some { html := h, error := Option.none } ∧
    fetch_with_firecrawl true ProviderOutcome.err Option.none Option.none
      true (some h) = some { html := h, error := Option.none } ∧
    fetch_with_firecrawl true ProviderOutcome.timeout (some h) (some h)
      true (some h) = some { html := "", error := some "Firecrawl timeout" } ∧
    fetch_with_firecrawl true (ProviderOutcome.ok "") (some h) (some h)
      true (some h) = some { html := "", error := Option.none } ∧
    fetch_with_firecrawl false (ProviderOutcome.ok h) (some h) (some h)
      true (some h) =
      some { html := "", error := some "Firecrawl API key not set" } := by
  exact ⟨rfl, rfl, rfl, rfl, rfl, rfl⟩

/-- A record that `build_standard_promo` can return (for some inputs). -/
def IsBuildOutput (p : Promo) : Prop :=
  ∃ (competitor : Promo) (promo_url service_name promo_description category
      offer_details ad_title ad_text : String) (google_reviews : Option ℚ)
    (existing_promo : Option Promo) (date_scraped : String),
    p = build_standard_promo competitor promo_url service_name
      promo_description category offer_details ad_title ad_text
      google_reviews existing_promo date_scraped

theorem kal_pred_false_on_build (p q : Promo)
    (hp : IsBuildOutput p) (hq : IsBuildOutput q) :
    Kal.are_promos_duplicate p q = false := by
  obtain ⟨c1, u1, a1, b1, d1, e1, f1, g1, r1, x1, s1, rfl⟩ := hp
  obtain ⟨c2, u2, a2, b2, d2, e2, f2, g2, r2, x2, s2, rfl⟩ := hq
  rfl

theorem kal_dedup_go_id (acc : List Promo) (ps : List Promo)
    (hacc : ∀ e ∈ acc, IsBuildOutput e)
    (hps : ∀ p ∈ ps, IsBuildOutput p) :
    Kal.dedup_go acc ps = acc ++ ps := by
  induction ps generalizing acc with
  | nil => simp [Kal.dedup_go]
  | cons p ps ih =>
    have hfind : acc.find? (fun e => Kal.are_promos_duplicate p e) = Option.none := by
      apply List.find?_eq_none.mpr
      intro e he
      simp [kal_pred_false_on_build p e (hps p (List.mem_cons_self p ps)) (hacc e he)]
    simp only [Kal.dedup_go, hfind]
    rw [ih (acc ++ [p])
      (by
        intro e he
        rcases List.mem_append.mp he with he | he
        · exact hacc e he
        · rw [List.mem_singleton.mp he]
          exact hps p (List.mem_cons_self p ps))
      (fun q hq => hps q (List.mem_cons_of_mem p hq))]
    simp

/-- C8: when every record in the list is a `build_standard_promo`
output, the kal duplicate predicate — which inspects only the
`promotion_title`, `discount_value` and `brand_name` keys, none of
which the builder sets — is false on every pair, and the kal
deduplication pass returns its input unchanged, in order. -/
theorem c8_kal_dedup_unchanged (ps : List Promo)
    (h : ∀ p ∈ ps, IsBuildOutput p) :
    (∀ p ∈ ps, ∀ q ∈ ps, Kal.are_promos_duplicate p q = false) ∧
    Kal.deduplicate ps = ps := by
  refine ⟨fun p hp q hq => kal_pred_false_on_build p q (h p hp) (h q hq), ?_⟩
  have := kal_dedup_go_id [] ps (by simp) h
  simpa [Kal.deduplicate] using this

/-- C8 witness: a singleton list holding one concrete builder output
passes through the kal deduplication unchanged. -/
theorem c8_kal_dedup_unchanged_witness :
    Kal.deduplicate [build_standard_promo [] "u" "a" "b" "c" "d" "e" "f"
      Option.none Option.none "g"] =
      [build_standard_promo [] "u" "a" "b" "c" "d" "e" "f"
        Option.none Option.none "g"] :=
  (c8_kal_dedup_unchanged _ (by
    intro p hp
    rw [List.mem_singleton.mp hp]
    exact ⟨[], "u", "a", "b", "c", "d", "e", "f", Option.none,
      Option.none, "g", rfl⟩)).2

/-- First record of the C4 counterexample (kept, then displaced). -/
def c4_e1 : Promo :=
  [("promotion_title", PVal.str "michelin rebate"),
   ("brand_name", PVal.str "Michelin"),
   ("discount_value", PVal.str "$10"),
   ("offer_details", PVal.str "x")]

/-- Second record of the C4 counterexample ($20: not within $5 of
$10, so it is kept alongside `c4_e1`). -/
def c4_e2 : Promo :=
  [("promotion_title", PVal.str "michelin deal"),
   ("brand_name", PVal.str "Michelin"),
   ("discount_value", PVal.str "$20"),
   ("offer_details", PVal.str "y")]

/-- Third record of the C4 counterexample ($15: within $5 of both,
and strictly more complete, so it replaces `c4_e1` without being
compared against `c4_e2`). -/
def c4_p : Promo :=
  [("promotion_title", PVal.str "michelin promo"),
   ("brand_name", PVal.str "Michelin"),
   ("discount_value", PVal.str "$15"),
   ("offer_details", PVal.str "zz"),
   ("ad_text", PVal.str "extra")]

/-- C4 counterexample: the kal deduplication pass is not idempotent —
a second pass over its own output shrinks the list again, because the
replace-with-better step never re-checks the newcomer against the
other kept records. -/
theorem c4_counterexample :
    Kal.deduplicate [c4_e1, c4_e2, c4_p] = [c4_e2, c4_p] ∧
    Kal.deduplicate (Kal.deduplicate [c4_e1, c4_e2, c4_p]) = [c4_p] ∧
    Kal.deduplicate (Kal.deduplicate [c4_e1, c4_e2, c4_p]) ≠
      Kal.deduplicate [c4_e1, c4_e2, c4_p] := by
  refine ⟨by decide, by decide, by decide⟩

theorem fountain_dedup_go_idem (dup : Promo → Promo → Bool)
    (ckey : Promo → String) : ∀ (xs seen : List Promo) (keys : List String),
    Fountain.dedup_go dup ckey (Fountain.dedup_go dup ckey xs seen keys)
      seen keys = Fountain.dedup_go dup ckey xs seen keys := by
  intro xs
  induction xs with
  | nil => intro seen keys; rfl
  | cons p ps ih =>
    intro seen keys
    by_cases h : (seen.any (fun e => dup p e) ||
        (!(ckey p == "") && keys.contains (ckey p))) = true
    · simp only [Fountain.dedup_go, h, if_true]
      exact ih seen keys
    · have h' : (seen.any (fun e => dup p e) ||
          (!(ckey p == "") && keys.contains (ckey p))) = false := by
        simpa using h
      simp only [Fountain.dedup_go, h', Bool.false_eq_true, if_false]
      congr 1
      exact ih (seen ++ [p]) (if ckey p == "" then keys else keys ++ [ckey p])

/-- C4 amended: the fountain scraper's deduplication loop — which
drops duplicates and never replaces a kept record — is idempotent for
every duplicate predicate and composite-key function; the kal
scraper's loop, which swaps in a later "better" record, is not
(see the counterexample). -/
theorem c4_fountain_dedup_idempotent (dup : Promo → Promo → Bool)
    (ckey : Promo → String) (xs : List Promo) :
    Fountain.deduplicate dup ckey (Fountain.deduplicate dup ckey xs) =
      Fountain.deduplicate dup ckey xs :=
  fountain_dedup_go_idem dup ckey xs [] []

/-- First record of the C2 counterexample ($10 in `offer_details`). -/
def c2_promo1 : Promo :=
  [("page_url", PVal.str "/p"), ("ad_title", PVal.str "Oil Change Special"),
   ("offer_details", PVal.str "Discount: $10")]

/-- Second record of the C2 counterexample ($20, same page and title). -/
def c2_promo2 : Promo :=
  [("page_url", PVal.str "/p"), ("ad_title", PVal.str "Oil Change Special"),
   ("offer_details", PVal.str "Discount: $20")]

/-- C2 counterexample: two records on the same page with identical
titles but different extracted discounts ($10 vs $20) ARE merged by
the midas predicate — its same-page quick check fires before the
discount comparison. -/
theorem c2_counterexample :
    Midas.discount_of c2_promo1 = "$10" ∧
    Midas.discount_of c2_promo2 = "$20" ∧
    Midas.discount_of c2_promo1 ≠ Midas.discount_of c2_promo2 ∧
    Midas.quick_title c2_promo1 = Midas.quick_title c2_promo2 ∧
    Midas.are_promos_duplicate c2_promo1 c2_promo2 = true := by
  decide

/-- C2 amended: the negative override holds only away from the midas
same-page quick check — for records on different pages, different
extracted discounts or different extracted brands are never merged by
the midas predicate; the kal predicate never merges records with
different identified brands, and never merges records with different
discount strings whose numeric values differ by more than $5. -/
theorem c2_negative_override :
    (∀ p1 p2 : Promo, getStr p1 "page_url" ≠ getStr p2 "page_url" →
      Midas.discount_of p1 ≠ "" → Midas.discount_of p2 ≠ "" →
      Midas.discount_of p1 ≠ Midas.discount_of p2 →
      Midas.are_promos_duplicate p1 p2 = false) ∧
    (∀ p1 p2 : Promo, getStr p1 "page_url" ≠ getStr p2 "page_url" →
      Midas.brand_of p1 ≠ Option.none → Midas.brand_of p2 ≠ Option.none →
      Midas.brand_of p1 ≠ Midas.brand_of p2 →
      Midas.are_promos_duplicate p1 p2 = false) ∧
    (∀ (p1 p2 : Promo) (x y : String), Kal.brand_of p1 = some x →
      Kal.brand_of p2 = some y → pyLower x ≠ pyLower y →
      Kal.are_promos_duplicate p1 p2 = false) ∧
    (∀ (p1 p2 : Promo) (v1 v2 : Nat × Nat),
      getStr p1 "discount_value" ≠ getStr p2 "discount_value" →
      scanNumber (getStr p1 "discount_value").data = some v1 →
      scanNumber (getStr p2 "discount_value").data = some v2 →
      absDiffLe v1 v2 5 = false →
      Kal.are_promos_duplicate p1 p2 = false) := by
  refine ⟨?_, ?_, ?_, ?_⟩
  · intro p1 p2 hpage hd1 hd2 hne
    simp only [Midas.are_promos_duplicate]
    rw [if_neg (fun h => hpage h.1), if_pos ⟨hd1, hd2, hne⟩]
  · intro p1 p2 hpage hb1 hb2 hbne
    simp only [Midas.are_promos_duplicate]
    rw [if_neg (fun h => hpage h.1)]
    by_cases hd : Midas.discount_of p1 ≠ "" ∧ Midas.discount_of p2 ≠ "" ∧
        Midas.discount_of p1 ≠ Midas.discount_of p2
    · rw [if_pos hd]
    · rw [if_neg hd, if_pos ⟨hb1, hb2, hbne⟩]
  · intro p1 p2 x y hx hy hxy
    have hb : (pyLower x == pyLower y) = false := by
      simpa using hxy
    simp only [Kal.are_promos_duplicate, hx, hy, hb]
    simp
  · intro p1 p2 v1 v2 hne hv1 hv2 habs
    have hbeq : (getStr p1 "discount_value" == getStr p2 "discount_value") = false := by
      simpa using hne
    simp only [Kal.are_promos_duplicate, hv1, hv2, hbeq, habs]
    simp

/-- C2 witness: concrete instances of each conjunct of the amended
negative-override theorem. -/
theorem c2_negative_override_witness :
    Midas.are_promos_duplicate
      [("page_url", PVal.str "a"), ("discount_value", PVal.str "$5")]
      [("page_url", PVal.str "b"), ("discount_value", PVal.str "$9")] = false ∧
    Midas.are_promos_duplicate
      [("page_url", PVal.str "a"),
       ("promo_description", PVal.str "michelin tires")]
      [("page_url", PVal.str "b"),
       ("promo_description", PVal.str "goodyear tires")] = false ∧
    Kal.are_promos_duplicate
      [("promotion_title", PVal.str "michelin sale")]
      [("promotion_title", PVal.str "goodyear sale")] = false ∧
    Kal.are_promos_duplicate
      [("discount_value", PVal.str "$10")]
      [("discount_value", PVal.str "$20")] = false := by
  refine ⟨c2_negative_override.1 _ _ (by decide) (by decide) (by decide)
      (by decide),
    c2_negative_override.2.1 _ _ (by decide) (by decide) (by decide)
      (by decide),
    c2_negative_override.2.2.1 _ _ "Michelin" "Goodyear" (by decide)
      (by decide) (by decide),
    c2_negative_override.2.2.2 _ _ (10, 0) (20, 0) (by decide) (by decide)
      (by decide) (by decide)⟩
